import Mathlib

/-!
Formal model of the contact-discovery pipeline in `lista_inwestorow.py`.

The Python source drives a staged people search against a remote API,
resolves each person's raw detail record to a single best professional
email, enforces a client-side rate limit, and assembles one result row
per company.  The definitions below are a shallow embedding of the pure
logic of that script: JSON dictionary fields become `Option`-typed
structure fields (`none` = key absent / null), Python string truthiness
becomes an explicit check, HTTP traffic is abstracted as lists of
response values fed to the retry loops, and wall-clock time is modelled
with exact rationals.
-/

/-! ## Data model -/

/-- One entry of the `emails` array of a RocketReach person record.
Every field is optional, mirroring `dict.get` access in the source. -/
structure EmailObj where
  email : Option String
  type : Option String
  grade : Option String
  smtp_valid : Option String
deriving DecidableEq

/-- The subset of a person lookup response (`data`) read by
`_process_email_data` and the row builder. -/
structure PersonData where
  recommended_professional_email : Option String
  current_work_email : Option String
  emails : Option (List EmailObj)
  name : Option String
  current_title : Option String
  linkedin_url : Option String
  current_employer : Option String
  skills : Option (List String)
deriving DecidableEq

/-- The dictionary returned by `_process_email_data` when the person is
kept (the `return {...}` at the end of the method); `none` models the
empty dict `{}` returned when the chosen email is SMTP-invalid. -/
structure Contact where
  id : Nat
  name : String
  title : String
  email : String
  email_grade : String
  smtp_valid : String
  linkedin : String
  company : String
  skills : List String
deriving DecidableEq

/-- Python truthiness of `data.get(key)` for a string-valued key:
the key is present and the value is a non-empty string. -/
def truthyStr : Option String → Bool
  | none => false
  | some s => !(s == "")

/-! ## EmailResolver: `_process_email_data` -/

/-- The `grade_order` dictionary
`{'A': 1, 'A-': 2, 'B': 3, 'B-': 4, 'C': 5, 'D': 6, 'F': 7}`;
`none` models a key miss. -/
def grade_order (g : String) : Option Nat :=
  if g = "A" then some 1
  else if g = "A-" then some 2
  else if g = "B" then some 3
  else if g = "B-" then some 4
  else if g = "C" then some 5
  else if g = "D" then some 6
  else if g = "F" then some 7
  else none

/-- The sort key `grade_order.get(x.get('grade', 'F'), 8)` used to rank
valid professional emails: a missing grade falls back to the string
`"F"` before the dictionary lookup, and an unrecognized grade string
maps to 8. -/
def sortKey (e : EmailObj) : Nat :=
  (grade_order (e.grade.getD "F")).getD 8

/-- The `for email_obj in data.get('emails', []): if email_obj.get('email')
== professional_email: ... break` scan: grade and smtp validity of the
first email record whose address equals `addr`, or `("", "")` when no
record matches. -/
def findMeta (emails : List EmailObj) (addr : String) : String × String :=
  match emails.find? (fun e => e.email == some addr) with
  | some eo => (eo.grade.getD "", eo.smtp_valid.getD "")
  | none => ("", "")

/-- The `if/elif` selection hierarchy of `_process_email_data`, returning
`(professional_email, email_grade, smtp_valid)`.  The three branches are
guarded by Python truthiness of `recommended_professional_email`, then of
`current_work_email`, then by presence of the `emails` key; the final
branch stably sorts the SMTP-valid professional emails by `sortKey` and
takes the first, leaving the initial `("", "", "")` when the list is
empty. -/
def selectEmail (data : PersonData) : String × String × String :=
  if truthyStr data.recommended_professional_email then
    let pe := data.recommended_professional_email.getD ""
    let m := findMeta (data.emails.getD []) pe
    (pe, m.1, m.2)
  else if truthyStr data.current_work_email then
    let pe := data.current_work_email.getD ""
    let m := findMeta (data.emails.getD []) pe
    (pe, m.1, m.2)
  else if data.emails.isSome then
    let valid := (data.emails.getD []).filter
      (fun e => e.type == some "professional" && e.smtp_valid != some "invalid")
    match (valid.insertionSort (fun a b => sortKey a ≤ sortKey b)).head? with
    | some be => (be.email.getD "", be.grade.getD "", be.smtp_valid.getD "")
    | none => ("", "", "")
  else ("", "", "")

/-- `_process_email_data(data, person_id)`: apply the selection hierarchy,
then drop the person (`return {}`, modelled as `none`) exactly when the
chosen email's SMTP validity is the string `'invalid'`; otherwise emit
the contact dictionary. -/
def _process_email_data (data : PersonData) (person_id : Nat) : Option Contact :=
  if (selectEmail data).2.2 = "invalid" then none
  else some
    { id := person_id
      name := data.name.getD ""
      title := data.current_title.getD ""
      email := (selectEmail data).1
      email_grade := (selectEmail data).2.1
      smtp_valid := (selectEmail data).2.2
      linkedin := data.linkedin_url.getD ""
      company := data.current_employer.getD ""
      skills := data.skills.getD [] }

/-! ## Search client: `_search_optimized` and `_handle_rate_limit` -/

/-- A profile summary as it appears in the `profiles` array of a search
response body. -/
structure RawProfile where
  id : Option Nat
  name : Option String
  current_title : Option String
  current_employer : Option String
  linkedin_url : Option String
  skills : List String
deriving DecidableEq

/-- The lightweight result dictionary built by `_search_optimized` for
each surviving profile. -/
structure Candidate where
  id : Option Nat
  name : Option String
  title : Option String
  company : Option String
  linkedin : Option String
  skills : List String
deriving DecidableEq

/-- Character-list version of Python `str.startswith`. -/
def startsWithList : List Char → List Char → Bool
  | [], _ => true
  | _ :: _, [] => false
  | a :: as, b :: bs => a == b && startsWithList as bs

/-- Character-list version of Python substring containment. -/
def containsList (needle : List Char) (hay : List Char) : Bool :=
  startsWithList needle hay ||
    match hay with
    | [] => false
    | _ :: t => containsList needle t

/-- Python `needle in hay` on strings. -/
def strIn (needle hay : String) : Bool :=
  containsList needle.toList hay.toList

/-- The `check_value` computed for client-side post-filtering: the
lower-cased current title for a title search, the lower-cased
space-joined skills for a skills search.  Only these two fields are ever
passed by `search_people_profiles`; the generic
`str(person.get(field, '')).lower()` arm is unreachable there and is
modelled by its default. -/
def checkValue (field : String) (p : RawProfile) : String :=
  if field = "current_title" then (p.current_title.getD "").toLower
  else if field = "skills" then (String.intercalate " " p.skills).toLower
  else ""

/-- The body of the `for person in data.get('profiles', [])` loop on a
201 response: skip a profile when `clean_exclude` is non-empty and some
lower-cased excluded value occurs in `check_value`, otherwise build the
candidate dictionary. -/
def parseProfiles (field : String) (cleanExclude : List String)
    (profiles : List RawProfile) : List Candidate :=
  (profiles.filter (fun p =>
      !(!cleanExclude.isEmpty &&
        cleanExclude.any (fun ex => strIn ex.toLower (checkValue field p))))).map
    (fun p =>
      { id := p.id, name := p.name, title := p.current_title,
        company := p.current_employer, linkedin := p.linkedin_url,
        skills := p.skills })

/-- The JSON body of a search response, when the body parses as JSON:
an optional numeric `wait` field (read on 429) and a `profiles` array
(read on 201). -/
structure JsonBody where
  wait : Option ℚ
  profiles : List RawProfile
deriving DecidableEq

/-- An HTTP response as observed by the retry loop: status code, parsed
body (`none` when `response.json()` raises), and the numeric
`Retry-After` header if present. -/
structure HttpResponse where
  status : Nat
  body : Option JsonBody
  retryAfterHeader : Option ℚ
deriving DecidableEq

/-- `_handle_rate_limit(response)`: on a 429 status return the wait the
method sleeps for (`some`), computed as the body's `wait` field with
default 60 when the body parses as JSON, and as the `Retry-After` header
with default 60 only when the body does not parse; on any other status
return `none` (the method returns False without sleeping). -/
def _handle_rate_limit (r : HttpResponse) : Option ℚ :=
  if r.status = 429 then
    some (match r.body with
      | some j => j.wait.getD 60
      | none => r.retryAfterHeader.getD 60)
  else none

/-- The `while retry_count < max_retries` loop of `_search_optimized`,
driven by the successive server responses to the repeated identical
request.  Returns the parsed candidates together with the number of
requests issued: a 429 consumes one retry and continues, a 201 returns
the filtered profiles, any other status breaks and yields `[]` (the
`return []` after the loop). -/
def searchLoop (field : String) (cleanExclude : List String) :
    Nat → List HttpResponse → List Candidate × Nat
  | 0, _ => ([], 0)
  | _ + 1, [] => ([], 0)
  | n + 1, r :: rest =>
    match _handle_rate_limit r with
    | some _ =>
      let rec_result := searchLoop field cleanExclude n rest
      (rec_result.1, rec_result.2 + 1)
    | none =>
      if r.status = 201 then
        (parseProfiles field cleanExclude ((r.body.map (fun j => j.profiles)).getD []), 1)
      else ([], 1)

/-- `_search_optimized(company_url, field, values, exclude_values)` with
the HTTP exchange abstracted as the list of responses the server would
give to the repeated request: strip and drop empty values, return `[]`
issuing no request when no values remain, otherwise run the retry loop
with `max_retries = 3`. -/
def _search_optimized (field : String) (values excludeValues : List String)
    (responses : List HttpResponse) : List Candidate × Nat :=
  let cleanValues := (values.map String.trim).filter (fun v => v ≠ "")
  let cleanExclude := (excludeValues.map String.trim).filter (fun v => v ≠ "")
  if cleanValues.isEmpty then ([], 0)
  else searchLoop field cleanExclude 3 responses

/-! ## `search_people_profiles`: staged search with dedup -/

/-- The skills-stage accumulation loop: `existing_ids` is the id set of
the title-stage results, computed once before the loop; a skills result
whose id is not in that set is appended, and the loop breaks as soon as
the accumulated list reaches 10. -/
def addLoop (existingIds : List (Option Nat)) (acc : List Candidate) :
    List Candidate → List Candidate
  | [] => acc
  | r :: rest =>
    if r.id ∈ existingIds then addLoop existingIds acc rest
    else
      let acc2 := acc ++ [r]
      if 10 ≤ acc2.length then acc2 else addLoop existingIds acc2 rest

/-- `search_people_profiles` with the two stages' raw search results
given as inputs: take the first 10 title results; if fewer than 10, run
the skills stage and merge with id-dedup against the title results;
return at most 5 profiles.  The second component records whether the
stage-2 (skills) search call was issued. -/
def searchPeopleProfilesC (titleResults skillResults : List Candidate) :
    List Candidate × Bool :=
  let all1 := titleResults.take 10
  if all1.length < 10 then
    ((addLoop (all1.map (fun c => c.id)) all1 skillResults).take 5, true)
  else (all1.take 5, false)

/-- The profile list returned by `search_people_profiles`. -/
def searchPeopleProfiles (titleResults skillResults : List Candidate) :
    List Candidate :=
  (searchPeopleProfilesC titleResults skillResults).1

/-! ## Synchronous per-company processing in `main` -/

/-- The synchronous lookup loop of `main`: every profile is looked up
(one `lookup_person_details` call each, counted in the second
component), and a returned detail dictionary is kept when its `email`
is truthy and its `smtp_valid` differs from `'invalid'`.  The merge
`{**person, **details}` is the detail record itself, since every key of
the profile dictionary is overwritten by the details. -/
def processProfilesC (profiles : List Candidate)
    (lookup : Option Nat → Option Contact) : List Contact × Nat :=
  match profiles with
  | [] => ([], 0)
  | person :: rest =>
    let tail := processProfilesC rest lookup
    match lookup person.id with
    | none => (tail.1, tail.2 + 1)
    | some details =>
      if details.email ≠ "" ∧ details.smtp_valid ≠ "invalid" then
        (details :: tail.1, tail.2 + 1)
      else (tail.1, tail.2 + 1)

/-- One company's result row: the status string and the contacts placed
into the row's five person slots (`valid_contacts[:5]`). -/
def companyRow (profiles : List Candidate)
    (lookup : Option Nat → Option Contact) : String × List Contact :=
  if profiles.isEmpty then ("Nie znaleziono profili", [])
  else
    let v := (processProfilesC profiles lookup).1
    if v.isEmpty then ("Nie znaleziono kontaktów z prawidłowymi emailami", [])
    else
      let n := v.length
      (s!"Znaleziono {n} kontakt(ów) z prawidłowymi emailami", v.take 5)

/-- The synchronous main loop over the input websites: one row is
appended per website, with the profiles for each website supplied by the
search function. -/
def runAll (websites : List String) (search : String → List Candidate)
    (lookup : Option Nat → Option Contact) : List (String × List Contact) :=
  websites.map (fun w => companyRow (search w) lookup)

/-! ## RateLimiter: `_rate_limit_check` -/

/-- `_rate_limit_check` with wall-clock time passed explicitly: drop
timestamps at least one second old, and if five or more remain, sleep
`1.0 - (now - timestamps[0])` plus jitter when positive.  Returns the
sleep duration and the new timestamp list; note the appended timestamp
is `now`, read before the sleep. -/
def rateLimitCheck (ts : List ℚ) (now jitter : ℚ) : ℚ × List ℚ :=
  let kept := ts.filter (fun t => now - 1 < t)
  let delay : ℚ :=
    if 5 ≤ kept.length then
      let st := 1 - (now - kept.headD 0)
      if 0 < st then st + jitter else 0
    else 0
  (delay, kept ++ [now])

/-- Fire times of `n` back-to-back acquisitions: each call enters
`_rate_limit_check` at the previous call's fire time (the caller issues
its request immediately after the check returns), and its own request
fires after the computed delay. -/
def runRapid : Nat → List ℚ → ℚ → ℚ → List ℚ
  | 0, _, _, _ => []
  | n + 1, ts, now, j =>
    let r := rateLimitCheck ts now j
    (now + r.1) :: runRapid n r.2 (now + r.1) j

/-! ## Claim fixtures and theorems -/

/-- Detail record whose service-recommended email is marked SMTP-invalid
while a valid current-work alternative exists. -/
def c1data : PersonData :=
  { recommended_professional_email := some "r@x.com"
    current_work_email := some "w@x.com"
    emails := some
      [ { email := some "r@x.com", type := some "professional",
          grade := some "A", smtp_valid := some "invalid" },
        { email := some "w@x.com", type := some "professional",
          grade := some "B", smtp_valid := some "valid" } ]
    name := some "Jan", current_title := some "CFO"
    linkedin_url := none, current_employer := none, skills := none }

/-- Claim C1, counterexample: on a record whose recommended professional
email is marked SMTP-invalid, the resolver returns the empty record —
the person is dropped — even though a present current-work email with a
valid matching record was available, so selection does not proceed down
the hierarchy as the claim states. -/
theorem C1_counterexample :
    _process_email_data c1data 3 = none ∧
    truthyStr c1data.current_work_email = true ∧
    (findMeta (c1data.emails.getD []) (c1data.current_work_email.getD "")).2 = "valid" := by
  decide

/-- Claim C1, amended: the selection hierarchy is applied by field
presence only.  Whenever the recommended professional email field is
present and non-empty it is the selected address, the current-work and
graded fallbacks are never consulted, and the person is dropped exactly
when the emails-list record matching that address carries
`smtp_valid = 'invalid'`. -/
theorem C1_hierarchy_by_presence (data : PersonData) (pid : Nat)
    (h : truthyStr data.recommended_professional_email = true) :
    (selectEmail data).1 = data.recommended_professional_email.getD "" ∧
    (_process_email_data data pid = none ↔
      (findMeta (data.emails.getD [])
        (data.recommended_professional_email.getD "")).2 = "invalid") := by
  have hsel : selectEmail data =
      (data.recommended_professional_email.getD "",
        (findMeta (data.emails.getD []) (data.recommended_professional_email.getD "")).1,
        (findMeta (data.emails.getD []) (data.recommended_professional_email.getD "")).2) := by
    simp [selectEmail, h]
  refine ⟨by rw [hsel], ?_⟩
  unfold _process_email_data
  rw [hsel]
  constructor
  · intro hnone
    by_contra hne
    simp [hne] at hnone
  · intro hinv
    simp [hinv]

/-- Witness for `C1_hierarchy_by_presence` at the concrete record
`c1data`. -/
theorem C1_hierarchy_by_presence_witness :
    (selectEmail c1data).1 = c1data.recommended_professional_email.getD "" ∧
    (_process_email_data c1data 7 = none ↔
      (findMeta (c1data.emails.getD [])
        (c1data.recommended_professional_email.getD "")).2 = "invalid") :=
  C1_hierarchy_by_presence c1data 7 (by decide)

/-- Claim C2: whenever `_process_email_data` returns a contact record
(rather than the empty dict), the selected email's SMTP validity is not
the string `'invalid'`; and whenever the chosen email's validity is
`'invalid'` the method returns the empty dict, dropping the person. -/
theorem C2_invalid_never_emitted (data : PersonData) (pid : Nat) :
    (∀ c : Contact, _process_email_data data pid = some c →
      c.smtp_valid ≠ "invalid") ∧
    ((selectEmail data).2.2 = "invalid" → _process_email_data data pid = none) := by
  constructor
  · intro c hc
    unfold _process_email_data at hc
    split at hc
    · exact absurd hc (by simp)
    · next hne =>
      injection hc with h
      subst h
      exact hne
  · intro hinv
    unfold _process_email_data
    rw [if_pos hinv]

/-- Record picked up through the graded-fallback branch; used to witness
claim C2. -/
def c2data : PersonData :=
  { recommended_professional_email := none
    current_work_email := none
    emails := some
      [ { email := some "b@y.com", type := some "professional",
          grade := some "B", smtp_valid := some "valid" } ]
    name := some "Ala", current_title := some "CEO"
    linkedin_url := none, current_employer := none, skills := none }

/-- Record whose recommended email resolves to `smtp_valid = 'invalid'`;
used to witness claim C2. -/
def c2dataInv : PersonData :=
  { recommended_professional_email := some "bad@y.com"
    current_work_email := none
    emails := some
      [ { email := some "bad@y.com", type := some "professional",
          grade := some "A", smtp_valid := some "invalid" } ]
    name := some "Ola", current_title := some "CTO"
    linkedin_url := none, current_employer := none, skills := none }

/-- The contact `_process_email_data` emits for `c2data`. -/
def c2contact : Contact :=
  { id := 1, name := "Ala", title := "CEO", email := "b@y.com",
    email_grade := "B", smtp_valid := "valid", linkedin := "",
    company := "", skills := [] }

/-- Witness for `C2_invalid_never_emitted` at concrete records: the
emitted contact for `c2data` has non-invalid validity, and `c2dataInv`
is dropped. -/
theorem C2_invalid_never_emitted_witness :
    c2contact.smtp_valid ≠ "invalid" ∧ _process_email_data c2dataInv 4 = none :=
  ⟨(C2_invalid_never_emitted c2data 1).1 c2contact (by decide),
   (C2_invalid_never_emitted c2dataInv 4).2 (by decide)⟩

/-- Record whose recommended professional email does not occur in the
`emails` array at all. -/
def c10data : PersonData :=
  { recommended_professional_email := some "ceo@acme.com"
    current_work_email := none
    emails := some
      [ { email := some "other@acme.com", type := some "professional",
          grade := some "A", smtp_valid := some "valid" } ]
    name := some "Ewa", current_title := some "CFO"
    linkedin_url := none, current_employer := none, skills := none }

/-- A candidate profile whose lookup yields `c10data`. -/
def c10cand : Candidate :=
  { id := some 9, name := some "Ewa", title := some "CFO",
    company := none, linkedin := none, skills := [] }

/-- Claim C10: when the recommended professional email is present but
absent from the record's `emails` list, the resolver selects that
address with empty grade and empty SMTP validity, and such a contact
passes the downstream `email truthy and smtp_valid != 'invalid'` filter
of the main loop (it is appended to `valid_contacts`). -/
theorem C10_unverified_recommended_email_kept :
    (_process_email_data c10data 9).map
      (fun c => (c.email, c.email_grade, c.smtp_valid)) =
      some ("ceo@acme.com", "", "") ∧
    (processProfilesC [c10cand] (fun _ => _process_email_data c10data 9)).1.length = 1 := by
  decide

/-- Email records graded B, A-, D, A, all professional and SMTP-valid. -/
def c4dataA : PersonData :=
  { recommended_professional_email := none
    current_work_email := none
    emails := some
      [ { email := some "b@x.com", type := some "professional",
          grade := some "B", smtp_valid := some "valid" },
        { email := some "am@x.com", type := some "professional",
          grade := some "A-", smtp_valid := some "valid" },
        { email := some "d@x.com", type := some "professional",
          grade := some "D", smtp_valid := some "valid" },
        { email := some "a@x.com", type := some "professional",
          grade := some "A", smtp_valid := some "valid" } ]
    name := none, current_title := none
    linkedin_url := none, current_employer := none, skills := none }

/-- Email records graded B- and C, both professional and SMTP-valid. -/
def c4dataB : PersonData :=
  { recommended_professional_email := none
    current_work_email := none
    emails := some
      [ { email := some "bm@x.com", type := some "professional",
          grade := some "B-", smtp_valid := some "valid" },
        { email := some "c@x.com", type := some "professional",
          grade := some "C", smtp_valid := some "valid" } ]
    name := none, current_title := none
    linkedin_url := none, current_employer := none, skills := none }

/-- An ungraded (grade key absent) SMTP-valid professional email. -/
def c4emailU : EmailObj :=
  { email := some "u@x.com", type := some "professional",
    grade := none, smtp_valid := some "valid" }

/-- An F-graded SMTP-valid professional email. -/
def c4emailF : EmailObj :=
  { email := some "f@x.com", type := some "professional",
    grade := some "F", smtp_valid := some "valid" }

/-- An email carrying an unrecognized grade string. -/
def c4emailZ : EmailObj :=
  { email := some "z@x.com", type := some "professional",
    grade := some "Z", smtp_valid := some "valid" }

/-- Record offering an ungraded email ahead of an F-graded one. -/
def c4dataU : PersonData :=
  { recommended_professional_email := none
    current_work_email := none
    emails := some [c4emailU, c4emailF]
    name := none, current_title := none
    linkedin_url := none, current_employer := none, skills := none }

/-- Claim C4, counterexample: ungraded emails are not sorted last.  On a
record offering an ungraded valid professional email followed by an
F-graded one, the resolver picks the ungraded address, because a missing
grade falls back to the string `'F'` and ties with grade F, which the
stable sort resolves by input order. -/
theorem C4_counterexample :
    (_process_email_data c4dataU 3).map (fun c => c.email) = some "u@x.com" ∧
    c4dataU.emails = some [c4emailU, c4emailF] ∧
    c4emailU.grade = none ∧ c4emailF.grade = some "F" ∧
    c4emailF.type = some "professional" ∧ c4emailF.smtp_valid = some "valid" := by
  decide

/-- Claim C4, amended: the grade comparison is the total stable order
A > A- > B > B- > C > D > F; an email whose grade field is absent ranks
equal to F (ties broken by input order, not sorted last), and only an
email with an unrecognized grade string ranks strictly last (key 8).
Among valid professional emails graded [B, A-, D, A] the A-graded email
is picked, and among [B-, C] the B- email is picked. -/
theorem C4_grade_ranking :
    ((grade_order "A").getD 8 = 1 ∧ (grade_order "A-").getD 8 = 2 ∧
     (grade_order "B").getD 8 = 3 ∧ (grade_order "B-").getD 8 = 4 ∧
     (grade_order "C").getD 8 = 5 ∧ (grade_order "D").getD 8 = 6 ∧
     (grade_order "F").getD 8 = 7) ∧
    (∀ e : EmailObj, e.grade = none → sortKey e = 7) ∧
    (∀ e : EmailObj, ∀ g : String, e.grade = some g → grade_order g = none →
      sortKey e = 8) ∧
    (_process_email_data c4dataA 1).map (fun c => (c.email, c.email_grade)) =
      some ("a@x.com", "A") ∧
    (_process_email_data c4dataB 2).map (fun c => (c.email, c.email_grade)) =
      some ("bm@x.com", "B-") := by
  refine ⟨by decide, ?_, ?_, by decide, by decide⟩
  · intro e he
    simp [sortKey, he, grade_order]
  · intro e g he hg
    simp [sortKey, he, hg]

/-- Witness for `C4_grade_ranking` at concrete email records. -/
theorem C4_grade_ranking_witness :
    sortKey c4emailU = 7 ∧ sortKey c4emailZ = 8 :=
  ⟨C4_grade_ranking.2.1 c4emailU (by decide),
   C4_grade_ranking.2.2.1 c4emailZ "Z" (by decide) (by decide)⟩

/-- A bare candidate profile with identifier `n`. -/
def mkCand (n : Nat) : Candidate :=
  { id := some n, name := some "N", title := some "T",
    company := none, linkedin := none, skills := [] }

/-- A lookup in which every person resolves to a valid graded email. -/
def lkAll : Option Nat → Option Contact := fun i =>
  some { id := i.getD 0, name := "N", title := "T", email := "e@x.com",
         email_grade := "A", smtp_valid := "valid", linkedin := "",
         company := "", skills := [] }

/-- Claim C3, counterexample: with four candidates all resolving to
valid emails, the result row holds four contacts, exceeding the claimed
quota of 3. -/
theorem C3_counterexample :
    (companyRow [mkCand 1, mkCand 2, mkCand 3, mkCand 4] lkAll).2.length = 4 ∧
    ¬(4 ≤ 3) := by
  decide

/-- Claim C3, amended: the per-company cap is 5, not 3 — the contacts
placed in a company's result row number at most 5, and the staged search
itself returns at most 5 profiles. -/
theorem C3_contacts_at_most_five (profiles t s : List Candidate)
    (lookup : Option Nat → Option Contact) :
    (companyRow profiles lookup).2.length ≤ 5 ∧
    (searchPeopleProfiles t s).length ≤ 5 := by
  constructor
  · simp only [companyRow]
    split
    · simp
    · split
      · simp
      · simp [List.length_take]
  · simp only [searchPeopleProfiles, searchPeopleProfilesC]
    split <;> simp [List.length_take]

/-- Claim C5, counterexample: with five candidates all resolving to
valid contacts, five lookup calls are issued even though the claimed
quota of 3 verified contacts is already accumulated after the third
lookup; and the skills-stage search is entered with three title
candidates in hand, before any contact has been verified at all. -/
theorem C5_counterexample :
    (processProfilesC [mkCand 1, mkCand 2, mkCand 3, mkCand 4, mkCand 5] lkAll).2 = 5 ∧
    (processProfilesC [mkCand 1, mkCand 2, mkCand 3] lkAll).1.length = 3 ∧
    (searchPeopleProfilesC [mkCand 1, mkCand 2, mkCand 3] []).2 = true ∧
    ¬(5 ≤ 3) := by
  decide

/-- Claim C5, amended: no quota-based short-circuit exists.  The
synchronous loop issues exactly one lookup call per returned profile,
regardless of how many contacts have already been verified, and the
skills-stage search is entered exactly when the title stage accumulated
fewer than 10 candidate profiles — a condition on candidate count, not
on verified contacts. -/
theorem C5_no_quota_short_circuit (t s profiles : List Candidate)
    (lookup : Option Nat → Option Contact) :
    (processProfilesC profiles lookup).2 = profiles.length ∧
    ((searchPeopleProfilesC t s).2 = true ↔ (t.take 10).length < 10) := by
  constructor
  · induction profiles with
    | nil => rfl
    | cons p rest ih =>
      simp only [processProfilesC]
      cases lookup p.id with
      | none => simp [ih]
      | some d =>
        by_cases hd : d.email ≠ "" ∧ d.smtp_valid ≠ "invalid"
        · simp [hd, ih]
        · simp only [if_neg hd]
          simp [ih]
  · simp only [searchPeopleProfilesC]
    split
    · next hlt => simpa using hlt
    · next hge => simpa using hge

/-- Invariant of the skills-stage accumulation loop: if the accumulated
ids are distinct, the pending skills results have distinct ids, and
every pending result either has its id in the pre-computed `existingIds`
set or fresh relative to the accumulator, then the loop's output has
distinct ids, and every output entry is either an original accumulator
entry or carries an id outside `existingIds`. -/
theorem addLoop_ids_nodup (ids : List (Option Nat)) (acc rest : List Candidate)
    (hacc : (acc.map (fun c => c.id)).Nodup)
    (hrest : (rest.map (fun c => c.id)).Nodup)
    (hcross : ∀ r ∈ rest, r.id ∈ ids ∨ r.id ∉ acc.map (fun c => c.id)) :
    ((addLoop ids acc rest).map (fun c => c.id)).Nodup ∧
    ∀ c ∈ addLoop ids acc rest, c ∈ acc ∨ c.id ∉ ids := by
  induction rest generalizing acc with
  | nil =>
    exact ⟨hacc, fun c hc => Or.inl hc⟩
  | cons r rest ih =>
    have hrid : r.id ∉ rest.map (fun c => c.id) :=
      (List.nodup_cons.mp (by simpa using hrest)).1
    have hrest' : (rest.map (fun c => c.id)).Nodup :=
      (List.nodup_cons.mp (by simpa using hrest)).2
    simp only [addLoop]
    by_cases hr : r.id ∈ ids
    · rw [if_pos hr]
      exact ih acc hacc hrest' (fun r' hr' => hcross r' (List.mem_cons_of_mem r hr'))
    · rw [if_neg hr]
      have hfresh : r.id ∉ acc.map (fun c => c.id) :=
        (hcross r (List.mem_cons_self r rest)).resolve_left hr
      have hacc2 : ((acc ++ [r]).map (fun c => c.id)).Nodup := by
        rw [List.map_append]
        rw [List.nodup_append]
        refine ⟨hacc, by simp, ?_⟩
        intro a ha hb
        rw [List.map_singleton, List.mem_singleton] at hb
        exact hfresh (hb ▸ ha)
      by_cases hlen : 10 ≤ (acc ++ [r]).length
      · rw [if_pos hlen]
        refine ⟨hacc2, fun c hc => ?_⟩
        rcases List.mem_append.mp hc with h | h
        · exact Or.inl h
        · rw [List.mem_singleton] at h
          exact Or.inr (h ▸ hr)
      · rw [if_neg hlen]
        have hcross2 : ∀ r' ∈ rest, r'.id ∈ ids ∨
            r'.id ∉ (acc ++ [r]).map (fun c => c.id) := by
          intro r' hr'
          rcases hcross r' (List.mem_cons_of_mem r hr') with h | h
          · exact Or.inl h
          · refine Or.inr ?_
            rw [List.map_append]
            intro hmem
            rcases List.mem_append.mp hmem with hm | hm
            · exact h hm
            · rw [List.map_singleton, List.mem_singleton] at hm
              exact hrid (hm ▸ List.mem_map_of_mem (fun c => c.id) hr')
        obtain ⟨hnd, hmem⟩ := ih (acc ++ [r]) hacc2 hrest' hcross2
        refine ⟨hnd, fun c hc => ?_⟩
        rcases hmem c hc with h | h
        · rcases List.mem_append.mp h with hm | hm
          · exact Or.inl hm
          · rw [List.mem_singleton] at hm
            exact Or.inr (hm ▸ hr)
        · exact Or.inr h

/-- Claim C8, counterexample: the skills-stage dedup checks only the ids
accumulated before that stage, so a candidate identifier duplicated
inside the skills results themselves is added twice and the candidate
list returned for a company contains duplicate identifiers. -/
theorem C8_counterexample :
    (searchPeopleProfiles [] [mkCand 7, mkCand 7]).map (fun c => c.id) =
      [some 7, some 7] ∧
    ¬ ((searchPeopleProfiles [] [mkCand 7, mkCand 7]).map (fun c => c.id)).Nodup := by
  decide

/-- Claim C8, amended: dedup across stages holds — every returned
candidate that was not a title-stage result carries an id outside the
title-stage id set — and the returned list has no duplicate identifiers
provided each stage's own results are already duplicate-free (ids
duplicated within one stage's response survive). -/
theorem C8_dedup_across_stages (t s : List Candidate)
    (ht : (t.map (fun c => c.id)).Nodup)
    (hs : (s.map (fun c => c.id)).Nodup) :
    ((searchPeopleProfiles t s).map (fun c => c.id)).Nodup ∧
    ∀ c ∈ searchPeopleProfiles t s, c ∉ t.take 10 →
      c.id ∉ (t.take 10).map (fun c => c.id) := by
  have htake : ((t.take 10).map (fun c => c.id)).Nodup := by
    rw [List.map_take]
    exact List.Nodup.sublist (List.take_sublist 10 _) ht
  simp only [searchPeopleProfiles, searchPeopleProfilesC]
  by_cases hlt : (t.take 10).length < 10
  · rw [if_pos hlt]
    obtain ⟨hnd, hmem⟩ := addLoop_ids_nodup ((t.take 10).map (fun c => c.id))
      (t.take 10) s htake hs (fun r _ => by
        by_cases h : r.id ∈ (t.take 10).map (fun c => c.id)
        · exact Or.inl h
        · exact Or.inr h)
    constructor
    · rw [List.map_take]
      exact List.Nodup.sublist (List.take_sublist 5 _) hnd
    · intro c hc hnotin
      have hc' := List.take_subset 5 _ hc
      exact (hmem c hc').resolve_left hnotin
  · rw [if_neg hlt]
    constructor
    · rw [List.map_take]
      exact List.Nodup.sublist (List.take_sublist 5 _) htake
    · intro c hc hnotin
      exact absurd (List.take_subset 5 _ hc) hnotin

/-- Witness for `C8_dedup_across_stages` at concrete one-element
stages. -/
theorem C8_dedup_across_stages_witness :
    ((searchPeopleProfiles [mkCand 1] [mkCand 2]).map (fun c => c.id)).Nodup ∧
    ∀ c ∈ searchPeopleProfiles [mkCand 1] [mkCand 2],
      c ∉ [mkCand 1].take 10 →
      c.id ∉ ([mkCand 1].take 10).map (fun c => c.id) :=
  C8_dedup_across_stages [mkCand 1] [mkCand 2] (by decide) (by decide)

/-- Claim C9: the synchronous run produces exactly one result row per
input company, and every row's status is one of the three forms — no
profiles, no valid emails, or found-n with n at least 1; exhaustion is a
status value, not an exception, and no company is missing from the
output. -/
theorem C9_one_row_per_company (websites : List String)
    (search : String → List Candidate) (lookup : Option Nat → Option Contact) :
    (runAll websites search lookup).length = websites.length ∧
    ∀ row ∈ runAll websites search lookup,
      row.1 = "Nie znaleziono profili" ∨
      row.1 = "Nie znaleziono kontaktów z prawidłowymi emailami" ∨
      ∃ n : Nat, 1 ≤ n ∧
        row.1 = s!"Znaleziono {n} kontakt(ów) z prawidłowymi emailami" := by
  refine ⟨by simp [runAll], ?_⟩
  intro row hrow
  rw [runAll, List.mem_map] at hrow
  obtain ⟨w, hw, hrow⟩ := hrow
  subst hrow
  simp only [companyRow]
  split
  · exact Or.inl rfl
  · split
    · exact Or.inr (Or.inl rfl)
    · next hne =>
      refine Or.inr (Or.inr ⟨(processProfilesC (search w) lookup).1.length, ?_, rfl⟩)
      have hnil : (processProfilesC (search w) lookup).1 ≠ [] := by
        simpa using hne
      exact List.length_pos.mpr hnil

/-- Witness for `C9_one_row_per_company` at a concrete one-company
run whose search returns no profiles. -/
theorem C9_one_row_per_company_witness :
    ("Nie znaleziono profili", ([] : List Contact)).1 = "Nie znaleziono profili" ∨
    ("Nie znaleziono profili", ([] : List Contact)).1 =
      "Nie znaleziono kontaktów z prawidłowymi emailami" ∨
    ∃ n : Nat, 1 ≤ n ∧
      ("Nie znaleziono profili", ([] : List Contact)).1 =
        s!"Znaleziono {n} kontakt(ów) z prawidłowymi emailami" :=
  (C9_one_row_per_company ["acme.com"] (fun _ => []) (fun _ => none)).2
    ("Nie znaleziono profili", []) (by decide)

/-- A 429 response whose body parses as JSON but has no `wait` field,
while a `Retry-After: 30` header is present. -/
def c7resp : HttpResponse :=
  { status := 429, body := some { wait := none, profiles := [] },
    retryAfterHeader := some 30 }

/-- The wait-selection rule exactly as the claim states it: the JSON
`wait` field if present, then the `Retry-After` header, then the
60-second default. -/
def claimedWait (r : HttpResponse) : ℚ :=
  ((r.body.bind (fun j => j.wait)).orElse (fun _ => r.retryAfterHeader)).getD 60

/-- Claim C7, counterexample: on a 429 whose JSON body lacks the `wait`
field, the code reports the 60-second default and ignores the present
`Retry-After: 30` header — the header is consulted only when the body
fails to parse as JSON, not as the second tier of a preference order. -/
theorem C7_counterexample :
    _handle_rate_limit c7resp = some 60 ∧ claimedWait c7resp = 30 ∧
    (60 : ℚ) ≠ 30 := by
  refine ⟨rfl, rfl, by norm_num⟩

/-- Claim C7, amended: on a 429 the reported wait is the JSON `wait`
field with a 60-second default whenever the body parses as JSON, and the
`Retry-After` header with a 60-second default only when it does not; the
search loop issues at most 3 requests, returns the empty list after 3
consecutive 429s, and returns the empty list after one request on any
other non-201 response, without raising. -/
theorem C7_retry_and_wait (field : String) (excl : List String)
    (r ra rb rc : HttpResponse) (rest resps : List HttpResponse) (fuel : Nat) :
    (r.status = 429 →
      (∀ jb, r.body = some jb → _handle_rate_limit r = some (jb.wait.getD 60)) ∧
      (r.body = none → _handle_rate_limit r = some (r.retryAfterHeader.getD 60))) ∧
    (searchLoop field excl fuel resps).2 ≤ fuel ∧
    (ra.status = 429 → rb.status = 429 → rc.status = 429 →
      searchLoop field excl 3 (ra :: rb :: rc :: rest) = ([], 3)) ∧
    (r.status ≠ 429 → r.status ≠ 201 →
      searchLoop field excl (fuel + 1) (r :: rest) = ([], 1)) := by
  refine ⟨?_, ?_, ?_, ?_⟩
  · intro h429
    constructor
    · intro jb hjb
      simp [_handle_rate_limit, h429, hjb]
    · intro hnb
      simp [_handle_rate_limit, h429, hnb]
  · induction fuel generalizing resps with
    | zero => simp [searchLoop]
    | succ n ih =>
      cases resps with
      | nil => simp [searchLoop]
      | cons r0 rest0 =>
        cases h : _handle_rate_limit r0 with
        | some w =>
          have h2 := ih rest0
          simp only [searchLoop, h]
          omega
        | none =>
          simp only [searchLoop, h]
          split
          · exact Nat.succ_le_succ (Nat.zero_le n)
          · exact Nat.succ_le_succ (Nat.zero_le n)
  · intro ha hb hc
    simp [searchLoop, _handle_rate_limit, ha, hb, hc]
  · intro h1 h2
    have hn : _handle_rate_limit r = none := by simp [_handle_rate_limit, h1]
    simp [searchLoop, hn, h2]

/-- A 429 response with a JSON `wait` of 5 seconds. -/
def c7r429 : HttpResponse :=
  { status := 429, body := some { wait := some 5, profiles := [] },
    retryAfterHeader := none }

/-- A plain server-error response. -/
def c7r500 : HttpResponse :=
  { status := 500, body := none, retryAfterHeader := none }

/-- Witness for `C7_retry_and_wait` at concrete responses: the JSON
wait is reported, three consecutive 429s exhaust the retries with three
requests, and a 500 yields the empty list after one request. -/
theorem C7_retry_and_wait_witness :
    _handle_rate_limit c7r429 = some (5 : ℚ) ∧
    searchLoop "current_title" [] 3 [c7r429, c7r429, c7r429] = ([], 3) ∧
    searchLoop "current_title" [] 3 [c7r500] = ([], 1) :=
  ⟨((C7_retry_and_wait "current_title" [] c7r429 c7r429 c7r429 c7r429 [] [] 3).1
      rfl).1 { wait := some 5, profiles := [] } rfl,
   (C7_retry_and_wait "current_title" [] c7r429 c7r429 c7r429 c7r429 [] [] 3).2.2.1
      rfl rfl rfl,
   (C7_retry_and_wait "current_title" [] c7r500 c7r429 c7r429 c7r429 [] [] 2).2.2.2
      (by decide) (by decide)⟩

/-- Claim C6, counterexample: eleven back-to-back acquisitions starting
at time 0 with jitter 1/10 fire at the times listed; calls 6 through 11
all fire at 11/10, so six requests fall inside the 1-second sliding
window (1/10, 11/10] — more than the ceiling of 5.  The violation stems
from each call recording its pre-sleep entry time rather than its
post-sleep issue time. -/
theorem C6_counterexample :
    runRapid 11 [] 0 (1/10) =
      [0, 0, 0, 0, 0, 11/10, 11/10, 11/10, 11/10, 11/10, 11/10] ∧
    ((runRapid 11 [] 0 (1/10)).filter
        (fun t => decide ((1:ℚ)/10 < t) && decide (t ≤ 11/10))).length = 6 ∧
    ¬(6 ≤ 5) := by
  refine ⟨?_, ?_, by decide⟩
  · norm_num [runRapid, rateLimitCheck, List.filter]
  · norm_num [runRapid, rateLimitCheck, List.filter]

/-- Claim C6, amended: when the rolling window holds at least 5 recent
timestamps and the computed sleep is positive, the call is delayed until
exactly the moment the oldest recorded timestamp ages out of the
1-second window, plus jitter; the timestamp recorded for the call is its
pre-sleep entry time `now`. -/
theorem C6_delay_until_window (ts : List ℚ) (now j : ℚ)
    (h5 : 5 ≤ (ts.filter (fun t => now - 1 < t)).length)
    (hpos : 0 < 1 - (now - (ts.filter (fun t => now - 1 < t)).headD 0)) :
    now + (rateLimitCheck ts now j).1 =
      (ts.filter (fun t => now - 1 < t)).headD 0 + 1 + j ∧
    (rateLimitCheck ts now j).2 = ts.filter (fun t => now - 1 < t) ++ [now] := by
  constructor
  · simp only [rateLimitCheck]
    rw [if_pos h5, if_pos hpos]
    ring
  · simp only [rateLimitCheck]

/-- Witness for `C6_delay_until_window` at a window of five timestamps
at time 0. -/
theorem C6_delay_until_window_witness :
    (0:ℚ) + (rateLimitCheck [0, 0, 0, 0, 0] 0 (1/10)).1 =
      (([0, 0, 0, 0, 0] : List ℚ).filter (fun t => (0:ℚ) - 1 < t)).headD 0 + 1 + 1/10 ∧
    (rateLimitCheck [0, 0, 0, 0, 0] 0 (1/10)).2 =
      ([0, 0, 0, 0, 0] : List ℚ).filter (fun t => (0:ℚ) - 1 < t) ++ [0] :=
  C6_delay_until_window [0, 0, 0, 0, 0] 0 (1/10)
    (by norm_num [List.filter]) (by norm_num [List.filter])
